import Mathlib

/-!
Verification of the Tabular Islamic calendar conversion routines in
`ext/calendar/tabislamic.c`.

The model below is a shallow embedding of the C source.  `zend_long`
values are modelled as `Int` (the C code only ever computes with values
far below the 64-bit range in the reachable region, and the division used
after the non-negativity guard agrees with mathematical division on
non-negative operands).  Out-parameters become a returned triple.
-/

namespace TabIslamic

/-- `#define ISLAMIC_SDN_OFFSET 1948440` -/
def ISLAMIC_SDN_OFFSET : Int := 1948440

/-- `#define CALENDAR_CYCLE_YEARS 30` -/
def CALENDAR_CYCLE_YEARS : Nat := 30

/-- `#define DAYS_PER_30_YEARS 10631` -/
def DAYS_PER_30_YEARS : Int := 10631

/-- the local array `yearEndDays` of `SdnToTabIslamic` (cumulative day
totals at the end of each year of a 30-year cycle). -/
def yearEndDays : List Int :=
  [354, 709, 1063, 1417, 1772, 2126, 2481, 2835, 3189, 3544,
   3898, 4252, 4607, 4961, 5315, 5670, 6024, 6379, 6733, 7087,
   7442, 7796, 8150, 8505, 8859, 9214, 9568, 9922, 10277, 10631]

/-- the local array `monthEndDays` of `SdnToTabIslamic` (cumulative day
totals at the end of each month of a year). -/
def monthEndDays : List Int :=
  [30, 59, 89, 118, 148, 177, 207, 236, 266, 295, 325, 355]

/-- The scan loop shared by `getYearInCycle` and `getMonth` in the C
source: iterate over the table entries in order with a 0-based counter
`i`; on the first entry `t` with `d < t` return `i + 1`; if the loop
exhausts the table, return the defensive `0`.  The C loop bound equals
the table length, so structural recursion over the table list is the
same iteration. -/
def scanBoundaries (d : Int) : List Int → Nat → Nat
  | [], _ => 0
  | t :: ts, i => if d < t then i + 1 else scanBoundaries d ts (i + 1)

/-- `static zend_long getYearInCycle(zend_long dayInCycle, zend_long *yearEndDays)` -/
def getYearInCycle (dayInCycle : Int) : Nat :=
  scanBoundaries dayInCycle yearEndDays 0

/-- `static zend_long getMonth(zend_long dayInYear, zend_long *monthEndDays)` -/
def getMonth (dayInYear : Int) : Nat :=
  scanBoundaries dayInYear monthEndDays 0

/-- the `yearBaseDay` computation of `SdnToTabIslamic`:
`if (yearInCycle == 1) yearBaseDay = 0; else yearBaseDay = yearEndDays[yearInCycle - 2];`.
The C index expression is only evaluated with `yearInCycle` in `[2, 30]`
(we prove the scan never falls through); `getD` totalises the lookup. -/
def yearBaseDay (yearInCycle : Nat) : Int :=
  if yearInCycle = 1 then 0 else yearEndDays.getD (yearInCycle - 2) 0

/-- the `monthBaseDay` computation of `SdnToTabIslamic`:
`if (monthInYear == 1) monthBaseDay = 0; else monthBaseDay = monthEndDays[monthInYear - 2];`. -/
def monthBaseDay (monthInYear : Nat) : Int :=
  if monthInYear = 1 then 0 else monthEndDays.getD (monthInYear - 2) 0

/-- the part of `SdnToTabIslamic` after the cycle decomposition: locate
the year within the cycle, the month within the year, and the day within
the month, and assemble the output triple. -/
def dateForDayInCycle (cycleNum dayInCycle : Int) : Int × Int × Int :=
  let yearInCycle := getYearInCycle dayInCycle
  let dayInYear := dayInCycle - yearBaseDay yearInCycle
  let monthInYear := getMonth dayInYear
  let dayInMonth := (dayInYear - monthBaseDay monthInYear) + 1
  (cycleNum * 30 + (yearInCycle : Int), ((monthInYear : Int), dayInMonth))

/-- `void SdnToTabIslamic(zend_long sdn, int *pYear, int *pMonth, int *pDay)`:
the three out-parameters become the returned triple `(year, month, day)`. -/
def SdnToTabIslamic (sdn : Int) : Int × Int × Int :=
  if sdn < ISLAMIC_SDN_OFFSET then (0, (0, 0))
  else
    let offsetJulianDay := sdn - ISLAMIC_SDN_OFFSET
    let cycleNum := offsetJulianDay / DAYS_PER_30_YEARS
    let dayInCycle := offsetJulianDay - cycleNum * DAYS_PER_30_YEARS
    dateForDayInCycle cycleNum dayInCycle

/-- `zend_long TabIslamicToSdn(int year, int month, int day)`: the body is
`return 0;`. -/
def TabIslamicToSdn (year month day : Int) : Int :=
  0

/-- `const char * const TabIslamicMonthName[13]`: the array literal has
exactly 13 entries, indices 0 through 12. -/
def TabIslamicMonthName : List String :=
  ["",
   "Vendemiaire",
   "Brumaire",
   "Frimaire",
   "Nivose",
   "Pluviose",
   "Ventose",
   "Germinal",
   "Floreal",
   "Prairial",
   "Messidor",
   "Fructidor",
   "Extra"]

/-- Calendar ordering on output triples: year first, then month, then
day (lexicographic). -/
def dateLe (a b : Int × Int × Int) : Prop :=
  a.1 < b.1 ∨ (a.1 = b.1 ∧ (a.2.1 < b.2.1 ∨ (a.2.1 = b.2.1 ∧ a.2.2 ≤ b.2.2)))

/-- Modelled from the spec (for the refinement claim about the forward
algorithm's steps): the same conversion written with the spec's
vocabulary — `cycleNum = offset div 10631`, `dayInCycle = offset mod
10631`, and each boundary lookup as "the smallest 0-based index `i` with
`day < table[i]`, plus one" (`List.findIdx`). -/
def SdnToTabIslamicSpecSteps (sdn : Int) : Int × Int × Int :=
  let offset := sdn - 1948440
  let cycleNum := offset / 10631
  let dayInCycle := offset % 10631
  let yearInCycle := yearEndDays.findIdx (fun t => dayInCycle < t) + 1
  let yearBase : Int := if yearInCycle = 1 then 0 else yearEndDays.getD (yearInCycle - 2) 0
  let dayInYear := dayInCycle - yearBase
  let monthInYear := monthEndDays.findIdx (fun t => dayInYear < t) + 1
  let monthBase : Int := if monthInYear = 1 then 0 else monthEndDays.getD (monthInYear - 2) 0
  (cycleNum * 30 + (yearInCycle : Int), ((monthInYear : Int), dayInYear - monthBase + 1))

/-- positions (1-based, within the 30-year cycle) of the years to which
the `yearEndDays` table assigns 355 days. -/
def leapYearPositions : List Nat :=
  [2, 5, 7, 10, 13, 16, 18, 21, 24, 26, 29]

end TabIslamic

namespace TabIslamic

/-! ### Generic facts about the boundary-table scan -/

/-- If the scan succeeds (some table entry exceeds `d`), its result is at
least `i + 1` and at most `i + length`. -/
theorem scanBoundaries_bounds (d : Int) (l : List Int) (i : Nat)
    (h : ∃ t ∈ l, d < t) :
    i + 1 ≤ scanBoundaries d l i ∧ scanBoundaries d l i ≤ i + l.length := by
  induction l generalizing i with
  | nil => rcases h with ⟨t, ht, _⟩; cases ht
  | cons t ts ih =>
    by_cases hd : d < t
    · simp only [scanBoundaries, if_pos hd, List.length_cons]
      omega
    · rcases h with ⟨u, hu, hdu⟩
      rcases List.mem_cons.mp hu with rfl | hu'
      · exact absurd hdu hd
      · have := ih (i + 1) ⟨u, hu', hdu⟩
        simp only [scanBoundaries, if_neg hd, List.length_cons]
        omega

/-- Characterisation of a successful scan: it returns `i + k + 1` where
`k` is an index with `d < l[k]` and every earlier entry at most `d`. -/
theorem scanBoundaries_char (d : Int) (l : List Int) (i : Nat)
    (h : ∃ t ∈ l, d < t) :
    ∃ k, k < l.length ∧ scanBoundaries d l i = i + k + 1 ∧
      d < l.getD k 0 ∧ ∀ j, j < k → l.getD j 0 ≤ d := by
  induction l generalizing i with
  | nil => rcases h with ⟨t, ht, _⟩; cases ht
  | cons t ts ih =>
    by_cases hd : d < t
    · refine ⟨0, by simp [List.length_cons], ?_, ?_, ?_⟩
      · simp [scanBoundaries, hd]
      · simpa using hd
      · intro j hj; omega
    · rcases h with ⟨u, hu, hdu⟩
      rcases List.mem_cons.mp hu with rfl | hu'
      · exact absurd hdu hd
      · rcases ih (i + 1) ⟨u, hu', hdu⟩ with ⟨k, hk, hscan, hlt, hle⟩
        refine ⟨k + 1, by simp [List.length_cons]; omega, ?_, ?_, ?_⟩
        · simp only [scanBoundaries, if_neg hd]; omega
        · simpa using hlt
        · intro j hj
          cases j with
          | zero => simpa using not_lt.mp hd
          | succ j' => simpa using hle j' (by omega)

/-- A successful scan computes `List.findIdx` of the strict comparison,
shifted by the accumulator and one. -/
theorem scanBoundaries_eq_findIdx (d : Int) (l : List Int) (i : Nat)
    (h : ∃ t ∈ l, d < t) :
    scanBoundaries d l i = i + l.findIdx (fun t => d < t) + 1 := by
  induction l generalizing i with
  | nil => rcases h with ⟨t, ht, _⟩; cases ht
  | cons t ts ih =>
    by_cases hd : d < t
    · simp [scanBoundaries, hd, List.findIdx_cons]
    · rcases h with ⟨u, hu, hdu⟩
      rcases List.mem_cons.mp hu with rfl | hu'
      · exact absurd hdu hd
      · have hrec := ih (i + 1) ⟨u, hu', hdu⟩
        have hdec : decide (d < t) = false := decide_eq_false hd
        simp only [scanBoundaries, if_neg hd, List.findIdx_cons, hdec, cond_false]
        omega

end TabIslamic

namespace TabIslamic

/-! ### Facts about the concrete tables -/

/-- `yearEndDays` has an entry above any `d < 10631` (its last entry). -/
theorem exists_yearEnd_gt (d : Int) (h : d < 10631) :
    ∃ t ∈ yearEndDays, d < t :=
  ⟨10631, by decide, h⟩

/-- `monthEndDays` has an entry above any `d < 355` (its last entry). -/
theorem exists_monthEnd_gt (d : Int) (h : d < 355) :
    ∃ t ∈ monthEndDays, d < t :=
  ⟨355, by decide, h⟩

/-- Characterisation of `getYearInCycle` on its intended domain: it
returns `i + 1` for an index `i < 30` with `d < yearEndDays[i]` and all
earlier entries at most `d`. -/
theorem getYearInCycle_char (d : Int) (h : d < 10631) :
    ∃ i, i < 30 ∧ getYearInCycle d = i + 1 ∧
      d < yearEndDays.getD i 0 ∧ ∀ j, j < i → yearEndDays.getD j 0 ≤ d := by
  rcases scanBoundaries_char d yearEndDays 0 (exists_yearEnd_gt d h) with
    ⟨k, hk, hscan, hlt, hle⟩
  exact ⟨k, by simpa [yearEndDays] using hk, by simpa [getYearInCycle] using hscan, hlt, hle⟩

/-- Characterisation of `getMonth` on its intended domain. -/
theorem getMonth_char (d : Int) (h : d < 355) :
    ∃ k, k < 12 ∧ getMonth d = k + 1 ∧
      d < monthEndDays.getD k 0 ∧ ∀ j, j < k → monthEndDays.getD j 0 ≤ d := by
  rcases scanBoundaries_char d monthEndDays 0 (exists_monthEnd_gt d h) with
    ⟨k, hk, hscan, hlt, hle⟩
  exact ⟨k, by simpa [monthEndDays] using hk, by simpa [getMonth] using hscan, hlt, hle⟩

/-- `getYearInCycle` is monotone on the cycle's day range. -/
theorem getYearInCycle_mono (d d' : Int) (hdd : d ≤ d') (h' : d' < 10631) :
    getYearInCycle d ≤ getYearInCycle d' := by
  rcases getYearInCycle_char d (lt_of_le_of_lt hdd h') with ⟨i, _, hy, _, hle⟩
  rcases getYearInCycle_char d' h' with ⟨i', _, hy', hlt', _⟩
  rw [hy, hy']
  by_contra hcon
  have hii : i' < i := by omega
  have := hle i' hii
  omega

/-- `getMonth` is monotone on the year's day range. -/
theorem getMonth_mono (d d' : Int) (hdd : d ≤ d') (h' : d' < 355) :
    getMonth d ≤ getMonth d' := by
  rcases getMonth_char d (lt_of_le_of_lt hdd h') with ⟨k, _, hm, _, hle⟩
  rcases getMonth_char d' h' with ⟨k', _, hm', hlt', _⟩
  rw [hm, hm']
  by_contra hcon
  have hkk : k' < k := by omega
  have := hle k' hkk
  omega

/-- Every year of the cycle spans at most 355 days in the table. -/
theorem yearSpan_le (i : Nat) (h : i < 30) :
    yearEndDays.getD i 0 - yearBaseDay (i + 1) ≤ 355 := by
  revert h
  revert i
  decide

/-- The year base day never exceeds a day located in that year. -/
theorem yearBaseDay_le (d : Int) (h0 : 0 ≤ d) (h : d < 10631) :
    yearBaseDay (getYearInCycle d) ≤ d := by
  rcases getYearInCycle_char d h with ⟨i, hi, hy, _, hle⟩
  rw [hy]
  cases i with
  | zero => simpa [yearBaseDay] using h0
  | succ i' =>
    have hidx : i' + 1 + 1 - 2 = i' := by omega
    have hne : ¬ (i' + 1 + 1 = 1) := by omega
    rw [yearBaseDay, if_neg hne, hidx]
    exact hle i' (by omega)

/-- The day offset within the located year stays below 355. -/
theorem dayInYear_lt (d : Int) (h : d < 10631) :
    d - yearBaseDay (getYearInCycle d) < 355 := by
  rcases getYearInCycle_char d h with ⟨i, hi, hy, hlt, _⟩
  rw [hy]
  have := yearSpan_le i hi
  omega

/-- The month base day never exceeds a day located in that month. -/
theorem monthBaseDay_le (d : Int) (h0 : 0 ≤ d) (h : d < 355) :
    monthBaseDay (getMonth d) ≤ d := by
  rcases getMonth_char d h with ⟨k, hk, hm, _, hle⟩
  rw [hm]
  cases k with
  | zero => simpa [monthBaseDay] using h0
  | succ k' =>
    have hidx : k' + 1 + 1 - 2 = k' := by omega
    have hne : ¬ (k' + 1 + 1 = 1) := by omega
    rw [monthBaseDay, if_neg hne, hidx]
    exact hle k' (by omega)

/-- Past the epoch, `SdnToTabIslamic` takes the non-sentinel path and its
subtractive cycle decomposition computes exactly `div`/`mod` by 10631. -/
theorem sdnToTabIslamic_eq_dateFor (sdn : Int) (h : ISLAMIC_SDN_OFFSET ≤ sdn) :
    SdnToTabIslamic sdn =
      dateForDayInCycle ((sdn - 1948440) / 10631) ((sdn - 1948440) % 10631) := by
  have hmod : sdn - 1948440 - (sdn - 1948440) / 10631 * 10631 = (sdn - 1948440) % 10631 := by
    omega
  rw [SdnToTabIslamic, if_neg (not_lt.mpr h)]
  show dateForDayInCycle ((sdn - ISLAMIC_SDN_OFFSET) / DAYS_PER_30_YEARS)
      ((sdn - ISLAMIC_SDN_OFFSET) -
        (sdn - ISLAMIC_SDN_OFFSET) / DAYS_PER_30_YEARS * DAYS_PER_30_YEARS) = _
  have e1 : sdn - ISLAMIC_SDN_OFFSET = sdn - 1948440 := rfl
  have e2 : DAYS_PER_30_YEARS = (10631 : Int) := rfl
  rw [e1, e2, hmod]

end TabIslamic

namespace TabIslamic

/-! ### Claim theorems -/

/-- C4: for every `sdn` strictly below the epoch constant 1948440,
`SdnToTabIslamic` produces the sentinel triple `(0, 0, 0)`. -/
theorem claim4_before_epoch_sentinel (sdn : Int) (h : sdn < ISLAMIC_SDN_OFFSET) :
    SdnToTabIslamic sdn = (0, (0, 0)) := by
  rw [SdnToTabIslamic, if_pos h]

theorem claim4_before_epoch_sentinel_witness :
    (1948439 : Int) < ISLAMIC_SDN_OFFSET ∧ SdnToTabIslamic 1948439 = (0, (0, 0)) :=
  ⟨by decide, claim4_before_epoch_sentinel 1948439 (by decide)⟩

/-- C5: the epoch day 1948440 converts to (1, 1, 1), and 354 days later
(the first day after year 1's 354 days) converts to (2, 1, 1). -/
theorem claim5_epoch_scenarios :
    SdnToTabIslamic 1948440 = (1, (1, 1)) ∧
    SdnToTabIslamic (1948440 + 354) = (2, (1, 1)) := by
  constructor <;> decide

/-- C10: `TabIslamicToSdn` is the constant-zero function: its body is
`return 0;` regardless of the input triple. -/
theorem claim10_toSdn_const_zero (year month day : Int) :
    TabIslamicToSdn year month day = 0 :=
  rfl

/-- C1 (failing input): the date-to-SDN direction is a stub, so the
round-trip law fails at the valid date (1, 1, 1): `TabIslamicToSdn`
returns 0 (not a positive SDN), and converting that 0 back gives the
sentinel, not (1, 1, 1) — even though (1, 1, 1) is a genuine supported
date whose SDN is 1948440 (shown by the last conjunct). -/
theorem claim1_roundtrip_fails_at_first_date :
    TabIslamicToSdn 1 1 1 = 0 ∧
    ¬ 0 < TabIslamicToSdn 1 1 1 ∧
    SdnToTabIslamic (TabIslamicToSdn 1 1 1) = (0, (0, 0)) ∧
    SdnToTabIslamic 1948440 = (1, (1, 1)) := by
  refine ⟨rfl, by decide, by decide, by decide⟩

/-- C2 (counterexample): the claim places a leap year (355-day span) at
year position 3 of the cycle, but the span of year 3 in `yearEndDays`
(entries at indices 2 and 1) is 354, not 355. -/
theorem claim2_counterexample :
    yearEndDays.getD 2 0 - yearEndDays.getD 1 0 = 354 ∧
    ¬ (yearEndDays.getD 2 0 - yearEndDays.getD 1 0 = 355) := by
  decide

/-- C2 (amended): the difference of consecutive `yearEndDays` entries is
355 exactly at the 1-based cycle positions 2, 5, 7, 10, 13, 16, 18, 21,
24, 26, 29 (the tabular Islamic leap years) and 354 everywhere else. -/
theorem claim2_year_span_pattern (i : Nat) (h : i < 30) :
    yearEndDays.getD i 0 - (if i = 0 then 0 else yearEndDays.getD (i - 1) 0) =
      (if (i + 1) ∈ leapYearPositions then 355 else 354) := by
  revert h
  revert i
  decide

theorem claim2_year_span_pattern_witness :
    (1 : Nat) < 30 ∧
    yearEndDays.getD 1 0 - (if (1 : Nat) = 0 then 0 else yearEndDays.getD (1 - 1) 0) =
      (if (1 + 1) ∈ leapYearPositions then 355 else 354) :=
  ⟨by decide, claim2_year_span_pattern 1 (by decide)⟩

/-- C3 (counterexample): the claim gives every month position 1–11 a
30-day span, but the span of month 2 in `monthEndDays` (entries at
indices 1 and 0) is 29, not 30. -/
theorem claim3_counterexample :
    monthEndDays.getD 1 0 - monthEndDays.getD 0 0 = 29 ∧
    ¬ (monthEndDays.getD 1 0 - monthEndDays.getD 0 0 = 30) := by
  decide

/-- C3 (amended): consecutive `monthEndDays` differences alternate: odd
months (0-based even indices) span 30 days, even months 29, except the
12th month whose table span is 30 (29 plus the absorbed leap day). -/
theorem claim3_month_span_pattern (i : Nat) (h : i < 12) :
    monthEndDays.getD i 0 - (if i = 0 then 0 else monthEndDays.getD (i - 1) 0) =
      (if i = 11 then 30 else if i % 2 = 0 then 30 else 29) := by
  revert h
  revert i
  decide

theorem claim3_month_span_pattern_witness :
    (1 : Nat) < 12 ∧
    monthEndDays.getD 1 0 - (if (1 : Nat) = 0 then 0 else monthEndDays.getD (1 - 1) 0) =
      (if (1 : Nat) = 11 then 30 else if 1 % 2 = 0 then 30 else 29) :=
  ⟨by decide, claim3_month_span_pattern 1 (by decide)⟩

/-- C8 (counterexample): the month-name array has exactly 13 entries
(indices 0–12), so index 13 is out of bounds (a defaulted lookup there
does not give "Extra"), and the fixed label "Extra" actually sits at
index 12 — where the claim expects month 12's proper name. -/
theorem claim8_counterexample :
    TabIslamicMonthName.length = 13 ∧
    ¬ (13 < TabIslamicMonthName.length) ∧
    TabIslamicMonthName.getD 13 "" = "" ∧
    TabIslamicMonthName.getD 12 "" = "Extra" :=
  ⟨rfl, by decide, rfl, rfl⟩

/-- C8 (amended): the table has 13 entries: index 0 yields the empty
string, indices 1–11 yield the month names Vendemiaire … Fructidor, and
index 12 (not 13) yields the fixed label "Extra". -/
theorem claim8_month_name_table :
    TabIslamicMonthName.length = 13 ∧
    TabIslamicMonthName.getD 0 "?" = "" ∧
    TabIslamicMonthName.getD 1 "?" = "Vendemiaire" ∧
    TabIslamicMonthName.getD 2 "?" = "Brumaire" ∧
    TabIslamicMonthName.getD 3 "?" = "Frimaire" ∧
    TabIslamicMonthName.getD 4 "?" = "Nivose" ∧
    TabIslamicMonthName.getD 5 "?" = "Pluviose" ∧
    TabIslamicMonthName.getD 6 "?" = "Ventose" ∧
    TabIslamicMonthName.getD 7 "?" = "Germinal" ∧
    TabIslamicMonthName.getD 8 "?" = "Floreal" ∧
    TabIslamicMonthName.getD 9 "?" = "Prairial" ∧
    TabIslamicMonthName.getD 10 "?" = "Messidor" ∧
    TabIslamicMonthName.getD 11 "?" = "Fructidor" ∧
    TabIslamicMonthName.getD 12 "?" = "Extra" :=
  ⟨rfl, rfl, rfl, rfl, rfl, rfl, rfl, rfl, rfl, rfl, rfl, rfl, rfl, rfl⟩

end TabIslamic

namespace TabIslamic

/-- On its intended domain, `getYearInCycle` computes the smallest-index
scan described by the spec (`List.findIdx`), plus one. -/
theorem getYearInCycle_eq_findIdx (d : Int) (h : d < 10631) :
    getYearInCycle d = yearEndDays.findIdx (fun t => d < t) + 1 := by
  have hs := scanBoundaries_eq_findIdx d yearEndDays 0 (exists_yearEnd_gt d h)
  simpa [getYearInCycle] using hs

/-- On its intended domain, `getMonth` computes the smallest-index scan
described by the spec (`List.findIdx`), plus one. -/
theorem getMonth_eq_findIdx (d : Int) (h : d < 355) :
    getMonth d = monthEndDays.findIdx (fun t => d < t) + 1 := by
  have hs := scanBoundaries_eq_findIdx d monthEndDays 0 (exists_monthEnd_gt d h)
  simpa [getMonth] using hs

/-- C9: the defensive fall-through returns are unreachable on validated
inputs: for every `dayInCycle` in `[0, 10631)` the year scan returns a
value in `[1, 30]` (never its defensive 0), and for every `dayInYear` in
`[0, 355)` the month scan returns a value in `[1, 12]`. -/
theorem claim9_defensive_unreachable :
    (∀ d : Int, 0 ≤ d → d < 10631 →
      1 ≤ getYearInCycle d ∧ getYearInCycle d ≤ 30) ∧
    (∀ d : Int, 0 ≤ d → d < 355 →
      1 ≤ getMonth d ∧ getMonth d ≤ 12) := by
  constructor
  · intro d _ h1
    have hb := scanBoundaries_bounds d yearEndDays 0 (exists_yearEnd_gt d h1)
    have hlen : yearEndDays.length = 30 := rfl
    have hg : getYearInCycle d = scanBoundaries d yearEndDays 0 := rfl
    omega
  · intro d _ h1
    have hb := scanBoundaries_bounds d monthEndDays 0 (exists_monthEnd_gt d h1)
    have hlen : monthEndDays.length = 12 := rfl
    have hg : getMonth d = scanBoundaries d monthEndDays 0 := rfl
    omega

theorem claim9_defensive_unreachable_witness :
    (0 : Int) ≤ 5000 ∧ (5000 : Int) < 10631 ∧ (0 : Int) ≤ 100 ∧ (100 : Int) < 355 ∧
    (1 ≤ getYearInCycle 5000 ∧ getYearInCycle 5000 ≤ 30) ∧
    (1 ≤ getMonth 100 ∧ getMonth 100 ≤ 12) :=
  ⟨by decide, by decide, by decide, by decide,
   claim9_defensive_unreachable.1 5000 (by decide) (by decide),
   claim9_defensive_unreachable.2 100 (by decide) (by decide)⟩

/-- C6: for every `sdn ≥ 1948440` the forward conversion follows the
claimed algorithm steps: the subtractively computed day-in-cycle is
exactly `offset mod 10631` and lies in `[0, 10631)`, and the whole
conversion agrees with the spec-worded version built from `div`/`mod`
and smallest-index (`List.findIdx`) boundary scans. -/
theorem claim6_forward_steps (sdn : Int) (h : ISLAMIC_SDN_OFFSET ≤ sdn) :
    0 ≤ (sdn - 1948440) % 10631 ∧
    (sdn - 1948440) % 10631 < 10631 ∧
    (sdn - 1948440) - ((sdn - 1948440) / 10631) * 10631 = (sdn - 1948440) % 10631 ∧
    SdnToTabIslamic sdn = SdnToTabIslamicSpecSteps sdn := by
  refine ⟨by omega, by omega, by omega, ?_⟩
  rw [sdnToTabIslamic_eq_dateFor sdn h]
  have hd1 : (sdn - 1948440) % 10631 < 10631 := by omega
  have hy := getYearInCycle_eq_findIdx ((sdn - 1948440) % 10631) hd1
  have hm := getMonth_eq_findIdx
    ((sdn - 1948440) % 10631 - yearBaseDay (getYearInCycle ((sdn - 1948440) % 10631)))
    (dayInYear_lt ((sdn - 1948440) % 10631) hd1)
  have hyb : ∀ y : Nat,
      (if y = 1 then (0 : Int) else yearEndDays.getD (y - 2) 0) = yearBaseDay y :=
    fun _ => rfl
  have hmb : ∀ m : Nat,
      (if m = 1 then (0 : Int) else monthEndDays.getD (m - 2) 0) = monthBaseDay m :=
    fun _ => rfl
  simp only [dateForDayInCycle, SdnToTabIslamicSpecSteps]
  rw [← hy, hyb, ← hm, hmb]

theorem claim6_forward_steps_witness :
    ISLAMIC_SDN_OFFSET ≤ (1948441 : Int) ∧
    (0 ≤ ((1948441 : Int) - 1948440) % 10631 ∧
     ((1948441 : Int) - 1948440) % 10631 < 10631 ∧
     ((1948441 : Int) - 1948440) - (((1948441 : Int) - 1948440) / 10631) * 10631 =
       ((1948441 : Int) - 1948440) % 10631 ∧
     SdnToTabIslamic 1948441 = SdnToTabIslamicSpecSteps 1948441) :=
  ⟨by decide, claim6_forward_steps 1948441 (by decide)⟩

end TabIslamic

namespace TabIslamic

/-- unfolded form of `dateForDayInCycle`, for component-wise reasoning. -/
theorem dateForDayInCycle_def (c d : Int) :
    dateForDayInCycle c d =
      (c * 30 + ((getYearInCycle d : Nat) : Int),
       (((getMonth (d - yearBaseDay (getYearInCycle d)) : Nat) : Int),
        d - yearBaseDay (getYearInCycle d)
          - monthBaseDay (getMonth (d - yearBaseDay (getYearInCycle d))) + 1)) :=
  rfl

/-- `dateLe` is reflexive. -/
theorem dateLe_refl (a : Int × Int × Int) : dateLe a a :=
  Or.inr ⟨rfl, Or.inr ⟨rfl, le_refl _⟩⟩

/-- `dateLe` is transitive. -/
theorem dateLe_trans (a b c : Int × Int × Int)
    (h1 : dateLe a b) (h2 : dateLe b c) : dateLe a c := by
  simp only [dateLe] at h1 h2 ⊢
  omega

/-- Within one cycle, moving one day forward never moves the located
date backwards (year/month/day lexicographically). -/
theorem dateForDayInCycle_step (c d : Int) (hd0 : 0 ≤ d) (hd1 : d + 1 < 10631) :
    dateLe (dateForDayInCycle c d) (dateForDayInCycle c (d + 1)) := by
  have hymono := getYearInCycle_mono d (d + 1) (by omega) hd1
  rcases Nat.lt_or_ge (getYearInCycle d) (getYearInCycle (d + 1)) with hylt | hyge
  · rw [dateForDayInCycle_def, dateForDayInCycle_def]
    exact Or.inl (by omega)
  · have hy' : getYearInCycle (d + 1) = getYearInCycle d := by omega
    have hb := yearBaseDay_le d hd0 (by omega)
    have hdylt := dayInYear_lt (d + 1) hd1
    rw [hy'] at hdylt
    have hmmono := getMonth_mono (d - yearBaseDay (getYearInCycle d))
      (d + 1 - yearBaseDay (getYearInCycle d)) (by omega) hdylt
    rcases Nat.lt_or_ge (getMonth (d - yearBaseDay (getYearInCycle d)))
      (getMonth (d + 1 - yearBaseDay (getYearInCycle d))) with hmlt | hmge
    · rw [dateForDayInCycle_def, dateForDayInCycle_def, hy']
      refine Or.inr ⟨rfl, Or.inl ?_⟩
      show ((getMonth (d - yearBaseDay (getYearInCycle d)) : Nat) : Int) <
        ((getMonth (d + 1 - yearBaseDay (getYearInCycle d)) : Nat) : Int)
      omega
    · have hm' : getMonth (d + 1 - yearBaseDay (getYearInCycle d))
          = getMonth (d - yearBaseDay (getYearInCycle d)) := by omega
      rw [dateForDayInCycle_def, dateForDayInCycle_def, hy', hm']
      refine Or.inr ⟨rfl, Or.inr ⟨rfl, ?_⟩⟩
      show d - yearBaseDay (getYearInCycle d)
          - monthBaseDay (getMonth (d - yearBaseDay (getYearInCycle d))) + 1 ≤
        d + 1 - yearBaseDay (getYearInCycle d)
          - monthBaseDay (getMonth (d - yearBaseDay (getYearInCycle d))) + 1
      omega

/-- One SDN step past the epoch never moves the converted date
backwards. -/
theorem sdnToTabIslamic_step (sdn : Int) (h : ISLAMIC_SDN_OFFSET ≤ sdn) :
    dateLe (SdnToTabIslamic sdn) (SdnToTabIslamic (sdn + 1)) := by
  have h' : (1948440 : Int) ≤ sdn := h
  have h1 : ISLAMIC_SDN_OFFSET ≤ sdn + 1 := by show (1948440 : Int) ≤ sdn + 1; omega
  rw [sdnToTabIslamic_eq_dateFor sdn h, sdnToTabIslamic_eq_dateFor (sdn + 1) h1]
  have hoff1 : sdn + 1 - 1948440 = (sdn - 1948440) + 1 := by ring
  rw [hoff1]
  by_cases hcase : (sdn - 1948440) % 10631 = 10630
  · have hc1 : ((sdn - 1948440) + 1) / 10631 = (sdn - 1948440) / 10631 + 1 := by omega
    have hm1 : ((sdn - 1948440) + 1) % 10631 = 0 := by omega
    rw [hc1, hm1, hcase]
    rw [dateForDayInCycle_def, dateForDayInCycle_def]
    have hg1 : getYearInCycle (10630 : Int) = 30 := by decide
    have hg2 : getYearInCycle (0 : Int) = 1 := by decide
    exact Or.inl (by omega)
  · have hc1 : ((sdn - 1948440) + 1) / 10631 = (sdn - 1948440) / 10631 := by omega
    have hm1 : ((sdn - 1948440) + 1) % 10631 = (sdn - 1948440) % 10631 + 1 := by omega
    rw [hc1, hm1]
    exact dateForDayInCycle_step _ _ (by omega) (by omega)

/-- Any number of SDN steps past the epoch never moves the converted
date backwards. -/
theorem sdnToTabIslamic_chain (sdn : Int) (h : ISLAMIC_SDN_OFFSET ≤ sdn) (n : Nat) :
    dateLe (SdnToTabIslamic sdn) (SdnToTabIslamic (sdn + n)) := by
  induction n with
  | zero => simpa using dateLe_refl (SdnToTabIslamic sdn)
  | succ n ih =>
    have h' : (1948440 : Int) ≤ sdn := h
    have hs : sdn + ((n + 1 : Nat) : Int) = (sdn + (n : Nat)) + 1 := by push_cast; ring
    rw [hs]
    exact dateLe_trans _ _ _ ih
      (sdnToTabIslamic_step (sdn + n) (by show (1948440 : Int) ≤ sdn + (n : Nat); omega))

/-- C7: for `sdn1 < sdn2` both at least the epoch constant, the date for
`sdn2` is not earlier than the date for `sdn1` under calendar ordering
(year, then month, then day). -/
theorem claim7_monotone (sdn1 sdn2 : Int) (h1 : ISLAMIC_SDN_OFFSET ≤ sdn1)
    (h12 : sdn1 < sdn2) :
    dateLe (SdnToTabIslamic sdn1) (SdnToTabIslamic sdn2) := by
  have hn : sdn2 = sdn1 + (((sdn2 - sdn1).toNat : Nat) : Int) := by
    rw [Int.toNat_of_nonneg (by omega : (0 : Int) ≤ sdn2 - sdn1)]
    ring
  rw [hn]
  exact sdnToTabIslamic_chain sdn1 h1 _

theorem claim7_monotone_witness :
    ISLAMIC_SDN_OFFSET ≤ (1948440 : Int) ∧ (1948440 : Int) < 1948795 ∧
    dateLe (SdnToTabIslamic 1948440) (SdnToTabIslamic 1948795) :=
  ⟨by decide, by decide, claim7_monotone 1948440 1948795 (by decide) (by decide)⟩

end TabIslamic
